import Mathlib

/-!
Verification of the logistics repository: a CVRP heuristic solver (spec §2-§8)
behind one endpoint, consumed by the frontend dashboard (src/frontend/dashboard.js).
The solver itself is modelled from the spec (its code is not in the repository
snapshot); the dashboard-side definitions are embedded from dashboard.js.
Real arithmetic (coordinates, weights, distances) is modelled over ℚ.
-/

namespace Logistics

/-- A geographic coordinate (spec §3: lat/lng floats, modelled over ℚ). -/
structure Coord where
  lat : ℚ
  lng : ℚ
deriving DecidableEq, Repr

/-- Spec §3 Order: `{id: string (unique), lat: float, lng: float, weight_kg: float ≥ 0}`. -/
structure Order where
  id : String
  lat : ℚ
  lng : ℚ
  weight_kg : ℚ
deriving DecidableEq, Repr

def Order.coord (o : Order) : Coord := ⟨o.lat, o.lng⟩

/-- Spec §3: `stop_etas` entry `{order_id, eta_minutes}`. -/
structure StopEta where
  order_id : String
  eta_minutes : ℚ
deriving DecidableEq, Repr

/-- Spec §3/§6 Route, with the per-route distance and duration fields under the
§6 contract names `total_distance` / `total_duration` (the names the dashboard
dereferences: dashboard.js lines 516, 532, 654, 307). -/
structure Route where
  route_id : Nat
  stop_sequence : List String
  truck_load : ℚ
  total_distance : ℚ
  total_duration : ℚ
  stop_etas : List StopEta
  delivery_polyline : List Coord
  return_polyline : List Coord
deriving DecidableEq, Repr

/-- Spec §3 OptimizationResult. -/
structure OptimizationResult where
  routes : List Route
  unassigned_orders : List Order
  total_distance_km : ℚ
  truck_capacity_kg : ℚ
  num_trucks : Nat
deriving DecidableEq, Repr

/-- Modelled from the spec: the solver's configuration constants (§3 Fleet,
§4.1 DistanceEngine).  The spec's haversine distance and depot-bearing angle
need real trigonometry, so they are carried as abstract function parameters
`dist` and `angleKey`; every theorem below holds for all instantiations,
in particular for the haversine/bearing pair the spec prescribes. -/
structure Config where
  depot : Coord
  dist : Coord → Coord → ℚ
  angleKey : Coord → ℚ
  average_speed_kmh : ℚ
  fixed_service_minutes : ℚ
  twoOptBudget : Nat
  truck_capacity_kg : ℚ

/-- Spec §4.1: `minutes = (distance_km / average_speed_kmh) * 60 + fixed_service_minutes`. -/
def travelMinutes (cfg : Config) (a b : Coord) : ℚ :=
  cfg.dist a b / cfg.average_speed_kmh * 60 + cfg.fixed_service_minutes

/-- Sum of order weights (spec §3: `truck_load = sum of assigned weights`). -/
def weightSum (l : List Order) : ℚ :=
  (l.map Order.weight_kg).sum

/-- Modelled from the spec (§4.2 step 1): sweep ordering — sort orders by their
angle from the depot, using a stable deterministic sort. -/
def sweepSort (cfg : Config) (orders : List Order) : List Order :=
  orders.insertionSort (fun a b => cfg.angleKey a.coord ≤ cfg.angleKey b.coord)

/-- Modelled from the spec (§4.2 steps 2-4): single greedy pass over the
sweep-sorted list.  `curRev` is the current truck's contents (reversed),
`curLoad` its load, `trucksLeft` the number of trucks after the current one.
An order heavier than `cap` goes directly to `unassigned` (step 3); when the
current truck would overflow, advance to the next truck (step 2); when no
trucks remain, the remainder goes to `unassigned` in sweep order (step 4). -/
def capacityAssignGo (cap : ℚ) : List Order → List Order → ℚ → Nat →
    List (List Order) × List Order
  | [], curRev, _, _ => ([curRev.reverse], [])
  | o :: rest, curRev, curLoad, trucksLeft =>
    if cap < o.weight_kg then
      ((capacityAssignGo cap rest curRev curLoad trucksLeft).1,
        o :: (capacityAssignGo cap rest curRev curLoad trucksLeft).2)
    else if curLoad + o.weight_kg ≤ cap then
      capacityAssignGo cap rest (o :: curRev) (curLoad + o.weight_kg) trucksLeft
    else if trucksLeft = 0 then
      ([curRev.reverse], o :: rest)
    else
      (curRev.reverse :: (capacityAssignGo cap rest [o] o.weight_kg (trucksLeft - 1)).1,
        (capacityAssignGo cap rest [o] o.weight_kg (trucksLeft - 1)).2)

/-- Modelled from the spec (§4.2 CapacityAssigner): partition the sweep-sorted
orders into at most `numTrucks` groups of total weight ≤ `cap`, plus the
unassigned remainder. -/
def capacityAssign (cfg : Config) (numTrucks : Nat) (orders : List Order) :
    List (List Order) × List Order :=
  match numTrucks with
  | 0 => ([], sweepSort cfg orders)
  | k + 1 => capacityAssignGo cfg.truck_capacity_kg (sweepSort cfg orders) [] 0 k

/-! ### RouteSequencer (spec §4.3): nearest-neighbor construction + bounded 2-opt -/

/-- Modelled from the spec (§4.3 step 1): among `o :: l`, the stop nearest to
`pos` (first wins on ties, keeping the output deterministic), together with the
remaining stops. -/
def selectNearest (dist : Coord → Coord → ℚ) (pos : Coord) (o : Order) :
    List Order → Order × List Order
  | [] => (o, [])
  | o2 :: rest =>
    if dist pos o.coord ≤ dist pos (selectNearest dist pos o2 rest).1.coord then
      (o, o2 :: rest)
    else
      ((selectNearest dist pos o2 rest).1, o :: (selectNearest dist pos o2 rest).2)

/-- Modelled from the spec (§4.3 step 1): nearest-neighbor tour construction,
repeatedly appending the unvisited stop nearest the current position.  `fuel`
bounds the recursion (instantiated with the stop count). -/
def nnGo (dist : Coord → Coord → ℚ) : Nat → Coord → List Order → List Order
  | 0, _, l => l
  | _ + 1, _, [] => []
  | fuel + 1, pos, o :: rest =>
    (selectNearest dist pos o rest).1 ::
      nnGo dist fuel (selectNearest dist pos o rest).1.coord (selectNearest dist pos o rest).2

/-- Reverse the contiguous tour segment at positions `[i, j]` (spec §4.3 step 2,
the 2-opt move). -/
def segReverse (tour : List Order) (i j : Nat) : List Order :=
  tour.take i ++ ((tour.drop i).take (j + 1 - i)).reverse ++ ((tour.drop i).drop (j + 1 - i))

/-- Total length of a polyline through the listed coordinates. -/
def chainLength (dist : Coord → Coord → ℚ) : List Coord → ℚ
  | [] => 0
  | [_] => 0
  | a :: b :: rest => dist a b + chainLength dist (b :: rest)

/-- Length of the closed tour depot → stops → depot (spec §4.3/§4.4). -/
def tourLen (dist : Coord → Coord → ℚ) (depot : Coord) (tour : List Order) : ℚ :=
  chainLength dist (depot :: tour.map Order.coord ++ [depot])

/-- All index pairs `(i, j)` with `i < j < n`, in lexicographic order (spec
§4.3: ties broken toward the lexicographically earlier reversal). -/
def lexPairs (n : Nat) : List (Nat × Nat) :=
  (List.range n).flatMap fun i => ((List.range n).filter fun j => i < j).map fun j => (i, j)

/-- Modelled from the spec (§4.3 step 2): the lexicographically first segment
reversal that strictly reduces tour length, if any. -/
def findImprove (dist : Coord → Coord → ℚ) (depot : Coord) (tour : List Order) :
    Option (List Order) :=
  ((lexPairs tour.length).find? fun p =>
      decide (tourLen dist depot (segReverse tour p.1 p.2) < tourLen dist depot tour)).map
    fun p => segReverse tour p.1 p.2

/-- Modelled from the spec (§4.3 step 2): bounded 2-opt improvement — apply the
first improving reversal, up to `budget` iterations; when no improving move
exists the tour is left unchanged. -/
def twoOptGo (dist : Coord → Coord → ℚ) (depot : Coord) : Nat → List Order → List Order
  | 0, tour => tour
  | n + 1, tour => twoOptGo dist depot n ((findImprove dist depot tour).getD tour)

/-- Modelled from the spec (§4.3 RouteSequencer): nearest-neighbor construction
followed by bounded 2-opt improvement. -/
def sequenceStops (cfg : Config) (group : List Order) : List Order :=
  twoOptGo cfg.dist cfg.depot cfg.twoOptBudget
    (nnGo cfg.dist group.length cfg.depot group)

/-! ### ETAProjector (spec §4.4) and ResultAssembler (spec §4.5) -/

/-- Modelled from the spec (§4.4 ETAProjector): walk the sequenced stops from
`pos` with elapsed time `t`, recording each stop's cumulative `eta_minutes`
(travel estimate plus fixed service time, per §4.1). -/
def projectEtas (cfg : Config) : Coord → ℚ → List Order → List StopEta
  | _, _, [] => []
  | pos, t, o :: rest =>
    ⟨o.id, t + travelMinutes cfg pos o.coord⟩ ::
      projectEtas cfg o.coord (t + travelMinutes cfg pos o.coord) rest

/-- Modelled from the spec (§4.4): cumulative duration of a route, including the
direct return leg to the depot after the last stop. -/
def routeDurationGo (cfg : Config) : Coord → ℚ → List Order → ℚ
  | pos, t, [] => t + travelMinutes cfg pos cfg.depot
  | pos, t, o :: rest => routeDurationGo cfg o.coord (t + travelMinutes cfg pos o.coord) rest

/-- Coordinate of the final stop (the depot when the route is empty). -/
def lastStopCoord (depot : Coord) (seq : List Order) : Coord :=
  ((seq.getLast?).map Order.coord).getD depot

/-- Modelled from the spec (§4.3-§4.5): build one truck's Route object from its
assigned group — sequence the stops, project ETAs, and fill every §6 field. -/
def buildRoute (cfg : Config) (rid : Nat) (group : List Order) : Route :=
  { route_id := rid
  , stop_sequence := (sequenceStops cfg group).map Order.id
  , truck_load := weightSum group
  , total_distance := tourLen cfg.dist cfg.depot (sequenceStops cfg group)
  , total_duration := routeDurationGo cfg cfg.depot 0 (sequenceStops cfg group)
  , stop_etas := projectEtas cfg cfg.depot 0 (sequenceStops cfg group)
  , delivery_polyline := cfg.depot :: (sequenceStops cfg group).map Order.coord
  , return_polyline := [lastStopCoord cfg.depot (sequenceStops cfg group), cfg.depot] }

/-- Build the Route list, numbering trucks `rid, rid + 1, …` (spec §3:
`route_id` drawn from `1..num_trucks`). -/
def buildRoutes (cfg : Config) : Nat → List (List Order) → List Route
  | _, [] => []
  | rid, g :: gs => buildRoute cfg rid g :: buildRoutes cfg (rid + 1) gs

/-- Modelled from the spec (§4.5 ResultAssembler / §2 pipeline): the full solver
computation — sweep + greedy capacity assignment, per-truck sequencing and
timing, then aggregation into the §6 response shape. -/
def optimize (cfg : Config) (orders : List Order) (numTrucks : Nat) : OptimizationResult :=
  { routes := buildRoutes cfg 1 (capacityAssign cfg numTrucks orders).1
  , unassigned_orders := (capacityAssign cfg numTrucks orders).2
  , total_distance_km :=
      ((buildRoutes cfg 1 (capacityAssign cfg numTrucks orders).1).map Route.total_distance).sum
  , truck_capacity_kg := cfg.truck_capacity_kg
  , num_trucks := numTrucks }

/-- Modelled from the spec (§7 input validation): empty order list, non-positive
`num_trucks`, non-positive `truck_capacity_kg`, or malformed coordinates/weights
(a negative `weight_kg`, violating §3's `weight_kg ≥ 0`, or a latitude/longitude
outside the valid geographic range) are rejected before any computation. -/
def validateRequest (cfg : Config) (orders : List Order) (numTrucks : Int) :
    Option String :=
  if orders.isEmpty then some "empty order list"
  else if numTrucks ≤ 0 then some "non-positive num_trucks"
  else if cfg.truck_capacity_kg ≤ 0 then some "non-positive truck_capacity_kg"
  else if orders.any fun o => o.weight_kg < 0 then some "malformed weight"
  else if orders.any fun o =>
      o.lat < -90 ∨ 90 < o.lat ∨ o.lng < -180 ∨ 180 < o.lng then
    some "malformed coordinates"
  else none

/-- A solver-boundary error (spec §7 taxonomy): a client-facing validation
error, distinct from any computed result. -/
inductive SolverError where
  | validation (msg : String)
deriving DecidableEq, Repr

/-- Modelled from the spec (§6/§7 solver boundary): validate, then compute.
Validation failures fail fast with no partial output; soft infeasibility never
produces an error, only `unassigned_orders` entries. -/
def solve (cfg : Config) (orders : List Order) (numTrucks : Int) :
    Except SolverError OptimizationResult :=
  (validateRequest cfg orders numTrucks).elim
    (Except.ok (optimize cfg orders numTrucks.toNat))
    (fun e => Except.error (SolverError.validation e))

/-! ### Response JSON shape (spec §6) and the dashboard's field accesses -/

/-- A JSON value (the response transport shape). -/
inductive JVal where
  | null
  | jbool (b : Bool)
  | jnum (q : ℚ)
  | jstr (s : String)
  | jarr (elems : List JVal)
  | jobj (fields : List (String × JVal))

/-- Field lookup on a JSON object, as a JS property dereference resolves it. -/
def jlookup (k : String) : List (String × JVal) → Option JVal
  | [] => none
  | (k2, v) :: rest => if k2 = k then some v else jlookup k rest

def stopEtaToJson (e : StopEta) : JVal :=
  .jobj [("order_id", .jstr e.order_id), ("eta_minutes", .jnum e.eta_minutes)]

def coordToJson (c : Coord) : JVal :=
  .jarr [.jnum c.lat, .jnum c.lng]

def orderToJson (o : Order) : JVal :=
  .jobj [("id", .jstr o.id), ("lat", .jnum o.lat), ("lng", .jnum o.lng),
    ("weight_kg", .jnum o.weight_kg)]

/-- Modelled from the spec (§6): the exact field names and nesting of one
route in the response: `route_id`, `stop_sequence`, `stop_etas`, `truck_load`,
`total_distance`, `total_duration`, `delivery_polyline`, `return_polyline`. -/
def routeFields (r : Route) : List (String × JVal) :=
  [ ("route_id", .jnum r.route_id)
  , ("stop_sequence", .jarr (r.stop_sequence.map JVal.jstr))
  , ("stop_etas", .jarr (r.stop_etas.map stopEtaToJson))
  , ("truck_load", .jnum r.truck_load)
  , ("total_distance", .jnum r.total_distance)
  , ("total_duration", .jnum r.total_duration)
  , ("delivery_polyline", .jarr (r.delivery_polyline.map coordToJson))
  , ("return_polyline", .jarr (r.return_polyline.map coordToJson)) ]

/-- Modelled from the spec (§6): the top-level response fields: `routes`,
`unassigned_orders`, `total_distance_km`, `truck_capacity_kg`, `num_trucks`. -/
def resultFields (res : OptimizationResult) : List (String × JVal) :=
  [ ("routes", .jarr (res.routes.map fun r => .jobj (routeFields r)))
  , ("unassigned_orders", .jarr (res.unassigned_orders.map orderToJson))
  , ("total_distance_km", .jnum res.total_distance_km)
  , ("truck_capacity_kg", .jnum res.truck_capacity_kg)
  , ("num_trucks", .jnum res.num_trucks) ]

/-- Embedded from dashboard.js: the dashboard reads a route's distance as
`r.total_distance` (lines 516 and 654). -/
def dashboardRouteDistance (fields : List (String × JVal)) : Option JVal :=
  jlookup "total_distance" fields

/-- Embedded from dashboard.js: the dashboard reads a route's duration as
`r.total_duration` (lines 307 and 532). -/
def dashboardRouteDuration (fields : List (String × JVal)) : Option JVal :=
  jlookup "total_duration" fields

/-- Embedded from dashboard.js: the dashboard reads the grand total as
`optResult.total_distance_km` (lines 405-408 and 597). -/
def dashboardTotalDistance (fields : List (String × JVal)) : Option JVal :=
  jlookup "total_distance_km" fields

/-- The solver boundary's full observable response: either a validation error
or the §6 JSON field list (used to state output determinism). -/
def solveResponse (cfg : Config) (orders : List Order) (numTrucks : Int) :
    Except SolverError (List (String × JVal)) :=
  (solve cfg orders numTrucks).map resultFields

/-! ### Dashboard-side embedded definitions (src/frontend/dashboard.js) -/

/-- CONFIG.API_URL (dashboard.js line 12). -/
def CONFIG_API_URL : String := "/optimize-routes"

/-- CONFIG.COLORS (dashboard.js lines 13-20): the five configured route colors. -/
def CONFIG_COLORS : List String :=
  ["#00F0FF", "#FF5500", "#00FF1A", "#0099CC", "#FF3333"]

/-- An outgoing HTTP request as the dashboard builds it. -/
structure HttpRequest where
  url : String
  timeoutMs : Nat
  bodyOrders : List Order
  bodyNumTrucks : Nat
deriving DecidableEq, Repr

/-- Embedded from dashboard.js APIService.optimizeRoutes (lines 101-107):
`axios.post(CONFIG.API_URL, { orders, num_trucks: numTrucks }, { timeout: 120000 })`. -/
def APIService.optimizeRoutes (orders : List Order) (numTrucks : Nat) : HttpRequest :=
  { url := CONFIG_API_URL
  , timeoutMs := 120000
  , bodyOrders := orders
  , bodyNumTrucks := numTrucks }

/-- Observable outcome of one App.generatePlan invocation. -/
structure PlanOutcome where
  apiCalled : Bool
  savedResult : Option JVal
  toast : String

/-- Embedded from dashboard.js App.generatePlan (lines 1009-1035): with no
stored points it toasts and returns without calling the solver endpoint;
otherwise the awaited API outcome either becomes the rendered-and-saved result
(success toast) or is caught and surfaced as a failure toast with nothing
saved.  (Emoji prefixes of the toast strings are omitted.) -/
def App.generatePlan (points : List Order) (apiOutcome : Except String JVal) :
    PlanOutcome :=
  if points.length = 0 then
    { apiCalled := false, savedResult := none, toast := "Add points first!" }
  else
    match apiOutcome with
    | .ok r =>
      { apiCalled := true, savedResult := some r, toast := "Optimization Complete!" }
    | .error e =>
      { apiCalled := true, savedResult := none, toast := "Optimization Failed: " ++ e }

/-- A JavaScript number as `Number(route?.route_id)` can produce it. -/
inductive JSNum where
  | nan
  | posInf
  | negInf
  | finite (q : ℚ)
deriving DecidableEq, Repr

/-- `Number.isFinite`. -/
def JSNum.isFinite : JSNum → Bool
  | .finite _ => true
  | _ => false

/-- The JS comparison `routeId > 0` (false on NaN). -/
def JSNum.gtZero : JSNum → Bool
  | .finite q => decide (0 < q)
  | .posInf => true
  | _ => false

/-- The rational value of a finite JS number (junk on non-finite inputs, which
`getRouteColor` never reads thanks to its `isFinite` guard). -/
def JSNum.toQ : JSNum → ℚ
  | .finite q => q
  | _ => 0

/-- JS truncation toward zero (the quotient used by the `%` operator):
for `q = num/den` (den positive) this is `num` t-divided by `den`. -/
def jsTrunc (q : ℚ) : ℤ :=
  q.num.tdiv q.den

/-- The JS `%` remainder: `a - b * trunc(a / b)` (sign follows the dividend). -/
def jsMod (a b : ℚ) : ℚ :=
  a - b * (jsTrunc (a / b) : ℚ)

/-- JS array indexing `l[x]` with a numeric index: an element only when `x` is
a nonnegative integer below the length, otherwise `undefined` (`none`). -/
def jsIndex (l : List String) (x : ℚ) : Option String :=
  if x.den = 1 ∧ 0 ≤ x.num then l[x.num.toNat]? else none

/-- Embedded from dashboard.js getRouteColor (lines 26-32):
`Number.isFinite(routeId) && routeId > 0` selects
`COLORS[(routeId - 1) % COLORS.length]`, otherwise
`COLORS[index % COLORS.length]`. -/
def getRouteColor (routeId : JSNum) (index : Nat) : Option String :=
  if routeId.isFinite && routeId.gtZero then
    jsIndex CONFIG_COLORS (jsMod (routeId.toQ - 1) 5)
  else
    jsIndex CONFIG_COLORS (jsMod (index : ℚ) 5)

/-- Models `localStorage.getItem(...) || 'null'` (dashboard.js line 59):
a missing or empty stored string is replaced by the literal `"null"`. -/
def jsOrNullLiteral (item : Option String) : String :=
  match item with
  | none => "null"
  | some s => if s = "" then "null" else s

/-- Embedded from dashboard.js Store.loadPoints (lines 46-51), body of the
`try` block before the catch: `saved ? JSON.parse(saved) : []`.  `parse` is
the external `JSON.parse`, erroring exactly where JS would throw. -/
def Store.loadPointsBody (parse : String → Except String JVal)
    (item : Option String) : Except String JVal :=
  match item with
  | none => .ok (.jarr [])
  | some s => if s = "" then .ok (.jarr []) else parse s

/-- Embedded from dashboard.js Store.loadPoints (lines 46-51): any parse
exception is caught and the empty list is returned. -/
def Store.loadPoints (parse : String → Except String JVal)
    (item : Option String) : JVal :=
  match Store.loadPointsBody parse item with
  | .ok v => v
  | .error _ => .jarr []

/-- Embedded from dashboard.js Store.loadOptResult (lines 57-61), body of the
`try` block: `JSON.parse(localStorage.getItem('opt_result') || 'null')`. -/
def Store.loadOptResultBody (parse : String → Except String JVal)
    (item : Option String) : Except String JVal :=
  parse (jsOrNullLiteral item)

/-- Embedded from dashboard.js Store.loadOptResult (lines 57-61): any parse
exception is caught and `null` is returned. -/
def Store.loadOptResult (parse : String → Except String JVal)
    (item : Option String) : JVal :=
  match Store.loadOptResultBody parse item with
  | .ok v => v
  | .error _ => .null

/-! ### Concrete fixtures (used by the witnesses) -/

/-- A concrete configuration for concrete evaluations: the abstract distance
and angle parameters are instantiated with constant zero (any instantiation
satisfies every theorem below), the spec's example constants otherwise. -/
def testCfg : Config :=
  { depot := ⟨0, 0⟩
  , dist := fun _ _ => 0
  , angleKey := fun _ => 0
  , average_speed_kmh := 40
  , fixed_service_minutes := 5
  , twoOptBudget := 2
  , truck_capacity_kg := 250 }

def testA : Order := ⟨"A", 0, 0, 100⟩

def testB : Order := ⟨"B", 0, 1, 200⟩

def testC : Order := ⟨"C", 0, 2, 300⟩

def testOrders : List Order := [testA, testB]

def testOrders2 : List Order := [testA, testC]

/-! ### Concrete evaluations of the fixtures, and the witnesses -/

/-- A concrete stand-in for the external `JSON.parse`, for the loader witness. -/
def testParse : String → Except String JVal := fun s =>
  if s = "null" then .ok .null
  else if s = "[1]" then .ok (.jarr [.jnum 1])
  else .error "SyntaxError"

/-! ### CapacityAssigner invariants -/

/-- The greedy pass conserves orders: trucks plus unassigned are a permutation
of the current truck's contents plus the remaining input. -/
theorem capacityAssignGo_perm (cap : ℚ) (orders : List Order) :
    ∀ (curRev : List Order) (curLoad : ℚ) (trucksLeft : Nat),
      ((capacityAssignGo cap orders curRev curLoad trucksLeft).1.flatten ++
        (capacityAssignGo cap orders curRev curLoad trucksLeft).2).Perm
        (curRev.reverse ++ orders) := by
  induction orders with
  | nil =>
    intro curRev curLoad trucksLeft
    simp [capacityAssignGo]
  | cons o rest ih =>
    intro curRev curLoad trucksLeft
    rw [capacityAssignGo]
    by_cases h1 : cap < o.weight_kg
    · simp only [if_pos h1]
      exact List.perm_middle.trans
        (((ih curRev curLoad trucksLeft).cons o).trans List.perm_middle.symm)
    · simp only [if_neg h1]
      by_cases h2 : curLoad + o.weight_kg ≤ cap
      · simp only [if_pos h2]
        have h := ih (o :: curRev) (curLoad + o.weight_kg) trucksLeft
        simpa [List.append_assoc] using h
      · simp only [if_neg h2]
        by_cases h3 : trucksLeft = 0
        · simp [h3]
        · simp only [if_neg h3, List.flatten_cons, List.append_assoc]
          have h := ih [o] o.weight_kg (trucksLeft - 1)
          simp only [List.reverse_cons, List.reverse_nil, List.nil_append] at h
          exact h.append_left _

theorem weightSum_reverse (l : List Order) : weightSum l.reverse = weightSum l := by
  simp [weightSum, List.sum_reverse]

theorem weightSum_cons (o : Order) (l : List Order) :
    weightSum (o :: l) = o.weight_kg + weightSum l := by
  simp [weightSum]

/-- Capacity invariant of the greedy pass: every emitted truck's total weight is
at most `cap`, provided the current truck's tracked load is accurate and within
capacity. -/
theorem capacityAssignGo_load (cap : ℚ) (orders : List Order) :
    ∀ (curRev : List Order) (curLoad : ℚ) (trucksLeft : Nat),
      curLoad = weightSum curRev → curLoad ≤ cap →
      ∀ t ∈ (capacityAssignGo cap orders curRev curLoad trucksLeft).1,
        weightSum t ≤ cap := by
  induction orders with
  | nil =>
    intro curRev curLoad trucksLeft hl hc t ht
    simp only [capacityAssignGo, List.mem_singleton] at ht
    subst ht
    rw [weightSum_reverse, ← hl]
    exact hc
  | cons o rest ih =>
    intro curRev curLoad trucksLeft hl hc t ht
    rw [capacityAssignGo] at ht
    by_cases h1 : cap < o.weight_kg
    · simp only [if_pos h1] at ht
      exact ih curRev curLoad trucksLeft hl hc t ht
    · simp only [if_neg h1] at ht
      by_cases h2 : curLoad + o.weight_kg ≤ cap
      · simp only [if_pos h2] at ht
        refine ih (o :: curRev) (curLoad + o.weight_kg) trucksLeft ?_ h2 t ht
        rw [weightSum_cons, hl]; ring
      · simp only [if_neg h2] at ht
        by_cases h3 : trucksLeft = 0
        · simp only [if_pos h3, List.mem_singleton] at ht
          subst ht
          rw [weightSum_reverse, ← hl]; exact hc
        · simp only [if_neg h3, List.mem_cons] at ht
          rcases ht with ht | ht
          · subst ht
            rw [weightSum_reverse, ← hl]; exact hc
          · refine ih [o] o.weight_kg (trucksLeft - 1) ?_ (le_of_not_lt h1) t ht
            simp [weightSum]

/-- Membership invariant of the greedy pass: every order inside an emitted truck
weighs at most `cap` (overweight orders are diverted in step 3 and never enter a
truck), provided that already holds of the current truck's contents. -/
theorem capacityAssignGo_mem_le (cap : ℚ) (orders : List Order) :
    ∀ (curRev : List Order) (curLoad : ℚ) (trucksLeft : Nat),
      (∀ x ∈ curRev, x.weight_kg ≤ cap) →
      ∀ t ∈ (capacityAssignGo cap orders curRev curLoad trucksLeft).1,
        ∀ x ∈ t, x.weight_kg ≤ cap := by
  induction orders with
  | nil =>
    intro curRev curLoad trucksLeft hcur t ht x hx
    simp only [capacityAssignGo, List.mem_singleton] at ht
    subst ht
    exact hcur x (List.mem_reverse.mp hx)
  | cons o rest ih =>
    intro curRev curLoad trucksLeft hcur t ht x hx
    rw [capacityAssignGo] at ht
    by_cases h1 : cap < o.weight_kg
    · simp only [if_pos h1] at ht
      exact ih curRev curLoad trucksLeft hcur t ht x hx
    · simp only [if_neg h1] at ht
      by_cases h2 : curLoad + o.weight_kg ≤ cap
      · simp only [if_pos h2] at ht
        refine ih (o :: curRev) (curLoad + o.weight_kg) trucksLeft ?_ t ht x hx
        intro y hy
        rcases List.mem_cons.mp hy with hy | hy
        · subst hy; exact le_of_not_lt h1
        · exact hcur y hy
      · simp only [if_neg h2] at ht
        by_cases h3 : trucksLeft = 0
        · simp only [if_pos h3, List.mem_singleton] at ht
          subst ht
          exact hcur x (List.mem_reverse.mp hx)
        · simp only [if_neg h3, List.mem_cons] at ht
          rcases ht with ht | ht
          · subst ht
            exact hcur x (List.mem_reverse.mp hx)
          · refine ih [o] o.weight_kg (trucksLeft - 1) ?_ t ht x hx
            intro y hy
            rcases List.mem_singleton.mp hy with rfl
            exact le_of_not_lt h1

/-- CapacityAssigner conserves orders: the partition plus the unassigned list is
a permutation of the input. -/
theorem capacityAssign_perm (cfg : Config) (numTrucks : Nat) (orders : List Order) :
    ((capacityAssign cfg numTrucks orders).1.flatten ++
      (capacityAssign cfg numTrucks orders).2).Perm orders := by
  have hs : (sweepSort cfg orders).Perm orders := List.perm_insertionSort _ orders
  cases numTrucks with
  | zero => simpa [capacityAssign] using hs
  | succ k =>
    have h := capacityAssignGo_perm cfg.truck_capacity_kg (sweepSort cfg orders) [] 0 k
    simp only [List.reverse_nil, List.nil_append] at h
    exact (h.trans hs)

/-- CapacityAssigner capacity invariant: with a nonnegative capacity, every
group's total weight is at most the capacity. -/
theorem capacityAssign_load (cfg : Config) (numTrucks : Nat) (orders : List Order)
    (hcap : 0 ≤ cfg.truck_capacity_kg) :
    ∀ t ∈ (capacityAssign cfg numTrucks orders).1,
      weightSum t ≤ cfg.truck_capacity_kg := by
  cases numTrucks with
  | zero => simp [capacityAssign]
  | succ k =>
    exact capacityAssignGo_load cfg.truck_capacity_kg (sweepSort cfg orders) [] 0 k
      (by simp [weightSum]) hcap

/-- CapacityAssigner membership invariant: every order placed into a group
weighs at most the capacity. -/
theorem capacityAssign_mem_le (cfg : Config) (numTrucks : Nat) (orders : List Order) :
    ∀ t ∈ (capacityAssign cfg numTrucks orders).1, ∀ x ∈ t,
      x.weight_kg ≤ cfg.truck_capacity_kg := by
  cases numTrucks with
  | zero => simp [capacityAssign]
  | succ k =>
    exact capacityAssignGo_mem_le cfg.truck_capacity_kg (sweepSort cfg orders) [] 0 k
      (by simp)

theorem selectNearest_perm (dist : Coord → Coord → ℚ) (pos : Coord) (o : Order)
    (l : List Order) :
    ((selectNearest dist pos o l).1 :: (selectNearest dist pos o l).2).Perm (o :: l) := by
  induction l generalizing o with
  | nil => simp [selectNearest]
  | cons o2 rest ih =>
    rw [selectNearest]
    by_cases h : dist pos o.coord ≤ dist pos (selectNearest dist pos o2 rest).1.coord
    · simp [if_pos h]
    · simp only [if_neg h]
      exact (List.Perm.swap o _ _).trans ((ih o2).cons o)

theorem nnGo_perm (dist : Coord → Coord → ℚ) :
    ∀ (fuel : Nat) (pos : Coord) (l : List Order), (nnGo dist fuel pos l).Perm l := by
  intro fuel
  induction fuel with
  | zero => intro pos l; simp [nnGo]
  | succ n ih =>
    intro pos l
    cases l with
    | nil => simp [nnGo]
    | cons o rest =>
      rw [nnGo]
      exact ((ih _ _).cons _).trans (selectNearest_perm dist pos o rest)

theorem segReverse_perm (tour : List Order) (i j : Nat) :
    (segReverse tour i j).Perm tour := by
  have h : ((tour.drop i).take (j + 1 - i)).reverse.Perm ((tour.drop i).take (j + 1 - i)) :=
    List.reverse_perm _
  calc (tour.take i ++ ((tour.drop i).take (j + 1 - i)).reverse ++
          ((tour.drop i).drop (j + 1 - i))).Perm
        (tour.take i ++ ((tour.drop i).take (j + 1 - i) ++ ((tour.drop i).drop (j + 1 - i)))) := by
        rw [List.append_assoc]
        exact (h.append_right _).append_left _
    _ = tour := by rw [List.take_append_drop, List.take_append_drop]

theorem findImprove_perm (dist : Coord → Coord → ℚ) (depot : Coord) (tour t' : List Order)
    (h : findImprove dist depot tour = some t') : t'.Perm tour := by
  unfold findImprove at h
  rcases hf : (lexPairs tour.length).find? fun p =>
      decide (tourLen dist depot (segReverse tour p.1 p.2) < tourLen dist depot tour) with
    _ | p
  · rw [hf] at h; simp at h
  · rw [hf] at h
    simp at h
    subst h
    exact segReverse_perm tour p.1 p.2

theorem twoOptGo_perm (dist : Coord → Coord → ℚ) (depot : Coord) :
    ∀ (n : Nat) (tour : List Order), (twoOptGo dist depot n tour).Perm tour := by
  intro n
  induction n with
  | zero => intro tour; simp [twoOptGo]
  | succ k ih =>
    intro tour
    rw [twoOptGo]
    refine (ih _).trans ?_
    rcases hf : findImprove dist depot tour with _ | t'
    · simp
    · simpa using findImprove_perm dist depot tour t' hf

/-- The sequencer only reorders its input. -/
theorem sequenceStops_perm (cfg : Config) (group : List Order) :
    (sequenceStops cfg group).Perm group :=
  (twoOptGo_perm cfg.dist cfg.depot cfg.twoOptBudget _).trans
    (nnGo_perm cfg.dist group.length cfg.depot group)

/-- `stop_etas` is positionally parallel to the stop sequence: the projected
order ids are exactly the sequenced order ids, in order. -/
theorem projectEtas_order_ids (cfg : Config) :
    ∀ (pos : Coord) (t : ℚ) (l : List Order),
      (projectEtas cfg pos t l).map StopEta.order_id = l.map Order.id := by
  intro pos t l
  induction l generalizing pos t with
  | nil => simp [projectEtas]
  | cons o rest ih => simp [projectEtas, ih]

theorem buildRoutes_stop_sequences (cfg : Config) :
    ∀ (rid : Nat) (gs : List (List Order)),
      (buildRoutes cfg rid gs).map Route.stop_sequence =
        gs.map fun g => (sequenceStops cfg g).map Order.id := by
  intro rid gs
  induction gs generalizing rid with
  | nil => simp [buildRoutes]
  | cons g gs ih => simp [buildRoutes, buildRoute, ih]

theorem buildRoutes_mem (cfg : Config) :
    ∀ (rid : Nat) (gs : List (List Order)) (r : Route), r ∈ buildRoutes cfg rid gs →
      ∃ g ∈ gs, ∃ k, r = buildRoute cfg k g := by
  intro rid gs
  induction gs generalizing rid with
  | nil => intro r hr; simp [buildRoutes] at hr
  | cons g gs ih =>
    intro r hr
    rcases List.mem_cons.mp hr with hr | hr
    · exact ⟨g, List.mem_cons_self g gs, rid, hr⟩
    · rcases ih (rid + 1) r hr with ⟨g', hg', k, hk⟩
      exact ⟨g', List.mem_cons_of_mem _ hg', k, hk⟩

/-! ### Supporting lemmas -/

theorem sequencedIds_flatten_perm (cfg : Config) (gs : List (List Order)) :
    ((gs.map fun g => (sequenceStops cfg g).map Order.id).flatten).Perm
      (gs.flatten.map Order.id) := by
  induction gs with
  | nil => simp
  | cons g gs ih =>
    simp only [List.map_cons, List.flatten_cons, List.map_append]
    exact ((sequenceStops_perm cfg g).map Order.id).append ih

/-- Inversion of a passed validation (spec §7): all rejection conditions are
absent. -/
theorem validateRequest_none (cfg : Config) (orders : List Order) (numTrucks : Int)
    (h : validateRequest cfg orders numTrucks = none) :
    orders ≠ [] ∧ 0 < numTrucks ∧ 0 < cfg.truck_capacity_kg ∧
      (∀ o ∈ orders, 0 ≤ o.weight_kg) ∧
      ∀ o ∈ orders, ¬(o.lat < -90 ∨ 90 < o.lat ∨ o.lng < -180 ∨ 180 < o.lng) := by
  unfold validateRequest at h
  split_ifs at h with h1 h2 h3 h4 h5
  all_goals try simp at h
  refine ⟨fun he => h1 (by simp [he]), not_le.mp h2, not_le.mp h3,
    fun o ho => ?_, fun o ho hm => ?_⟩
  · by_contra hw
    exact h4 (List.any_eq_true.mpr ⟨o, ho, by simpa using not_le.mp hw⟩)
  · exact h5 (List.any_eq_true.mpr ⟨o, ho, by simpa using hm⟩)

/-! ### Claim theorems -/

/-- C1 — Conservation: for every input order list, the multiset union of all
`stop_sequence` entries across the routes of the OptimizationResult and the ids
of `unassigned_orders` is a permutation of the input order ids: no order id is
duplicated, dropped, or present in both a route and `unassigned_orders`. -/
theorem claim1_conservation (cfg : Config) (orders : List Order) (numTrucks : Nat) :
    (((optimize cfg orders numTrucks).routes.map Route.stop_sequence).flatten ++
      (optimize cfg orders numTrucks).unassigned_orders.map Order.id).Perm
      (orders.map Order.id) := by
  have h1 : (optimize cfg orders numTrucks).routes.map Route.stop_sequence =
      (capacityAssign cfg numTrucks orders).1.map
        fun g => (sequenceStops cfg g).map Order.id := by
    simp [optimize, buildRoutes_stop_sequences]
  have h3 : (optimize cfg orders numTrucks).unassigned_orders =
      (capacityAssign cfg numTrucks orders).2 := rfl
  rw [h1, h3]
  refine ((sequencedIds_flatten_perm cfg _).append (List.Perm.refl _)).trans ?_
  rw [← List.map_append]
  exact (capacityAssign_perm cfg numTrucks orders).map Order.id

/-- C2 — Capacity: in every successfully computed OptimizationResult, each
route's `truck_load` is at most `truck_capacity_kg`, so the dashboard's
per-truck utilization percentage `(truck_load / truck_capacity_kg) * 100`
(dashboard.js line 629) never exceeds 100 on its fixed 0-100 axis. -/
theorem claim2_capacity (cfg : Config) (orders : List Order) (numTrucks : Int)
    (res : OptimizationResult) (r : Route)
    (hok : solve cfg orders numTrucks = .ok res) (hr : r ∈ res.routes) :
    r.truck_load ≤ res.truck_capacity_kg ∧
      r.truck_load / res.truck_capacity_kg * 100 ≤ 100 := by
  rcases hv : validateRequest cfg orders numTrucks with _ | msg
  · have hres : res = optimize cfg orders numTrucks.toNat := by
      rw [solve, hv] at hok
      simpa using hok.symm
    obtain ⟨-, -, hcap, -, -⟩ := validateRequest_none cfg orders numTrucks hv
    subst hres
    obtain ⟨g, hg, k, rfl⟩ := buildRoutes_mem cfg 1 _ r hr
    have hload : weightSum g ≤ cfg.truck_capacity_kg :=
      capacityAssign_load cfg _ orders (le_of_lt hcap) g hg
    have hfield : (buildRoute cfg k g).truck_load = weightSum g := rfl
    have hcapf : (optimize cfg orders numTrucks.toNat).truck_capacity_kg =
        cfg.truck_capacity_kg := rfl
    rw [hfield, hcapf]
    refine ⟨hload, ?_⟩
    have h1 : weightSum g / cfg.truck_capacity_kg ≤ 1 := (div_le_one hcap).mpr hload
    linarith
  · rw [solve, hv] at hok
    simp at hok

/-- C4 — Overflow correctness: for every valid request, an order whose
`weight_kg` strictly exceeds `truck_capacity_kg` never makes the request fail
(the solver still returns an `ok` result), appears in `unassigned_orders`, and
its id is never placed in any route's `stop_sequence`. -/
theorem claim4_overflow (cfg : Config) (orders : List Order) (numTrucks : Int)
    (r : Route) (o : Order)
    (hv : validateRequest cfg orders numTrucks = none)
    (ho : o ∈ orders) (hw : cfg.truck_capacity_kg < o.weight_kg)
    (hnd : (orders.map Order.id).Nodup)
    (hr : r ∈ (optimize cfg orders numTrucks.toNat).routes) :
    solve cfg orders numTrucks = .ok (optimize cfg orders numTrucks.toNat) ∧
      o ∈ (optimize cfg orders numTrucks.toNat).unassigned_orders ∧
      o.id ∉ r.stop_sequence := by
  have hperm := capacityAssign_perm cfg numTrucks.toNat orders
  refine ⟨by simp [solve, hv], ?_, ?_⟩
  · have hmem : o ∈ (capacityAssign cfg numTrucks.toNat orders).1.flatten ++
        (capacityAssign cfg numTrucks.toNat orders).2 := hperm.mem_iff.mpr ho
    rcases List.mem_append.mp hmem with hmem | hmem
    · obtain ⟨t, ht, hot⟩ := List.mem_flatten.mp hmem
      exact absurd (capacityAssign_mem_le cfg numTrucks.toNat orders t ht o hot)
        (not_le.mpr hw)
    · exact hmem
  · intro hid
    obtain ⟨g, hg, k, rfl⟩ := buildRoutes_mem cfg 1 _ r hr
    have hid' : o.id ∈ (sequenceStops cfg g).map Order.id := hid
    obtain ⟨o2, ho2seq, ho2id⟩ := List.mem_map.mp hid'
    have ho2g : o2 ∈ g := (sequenceStops_perm cfg g).mem_iff.mp ho2seq
    have ho2w : o2.weight_kg ≤ cfg.truck_capacity_kg :=
      capacityAssign_mem_le cfg numTrucks.toNat orders g hg o2 ho2g
    have ho2orders : o2 ∈ orders := by
      refine hperm.mem_iff.mp (List.mem_append.mpr (Or.inl ?_))
      exact List.mem_flatten.mpr ⟨g, hg, ho2g⟩
    have : o2 = o := List.inj_on_of_nodup_map hnd ho2orders ho ho2id
    subst this
    exact absurd ho2w (not_le.mpr hw)

/-- C5 — Determinism: the solver boundary's observable response (the full §6
JSON field list or the validation error) is a function of the order list, the
truck count and the configuration constants alone: two runs on identical
inputs produce identical responses. -/
theorem claim5_determinism (cfg₁ cfg₂ : Config) (orders₁ orders₂ : List Order)
    (n₁ n₂ : Int) (hc : cfg₁ = cfg₂) (ho : orders₁ = orders₂) (hn : n₁ = n₂) :
    solveResponse cfg₁ orders₁ n₁ = solveResponse cfg₂ orders₂ n₂ := by
  subst hc; subst ho; subst hn; rfl

/-- C8 — ETA/stop parallelism: in every computed route, the projected
`stop_etas` carry exactly the `stop_sequence` ids in order, so at every index
`i` of `stop_sequence`, `stop_etas[i].order_id = stop_sequence[i]` (which the
dashboard's timeline relies on positionally, dashboard.js lines 524-529). -/
theorem claim8_eta_parallel (cfg : Config) (orders : List Order) (numTrucks : Nat)
    (r : Route) (i : Nat)
    (hr : r ∈ (optimize cfg orders numTrucks).routes)
    (hi : i < r.stop_sequence.length) :
    r.stop_etas.map StopEta.order_id = r.stop_sequence ∧
      (r.stop_etas.getD i ⟨"", 0⟩).order_id = r.stop_sequence.getD i "" := by
  obtain ⟨g, hg, k, rfl⟩ := buildRoutes_mem cfg 1 _ r hr
  have hm : (buildRoute cfg k g).stop_etas.map StopEta.order_id =
      (buildRoute cfg k g).stop_sequence :=
    projectEtas_order_ids cfg cfg.depot 0 (sequenceStops cfg g)
  refine ⟨hm, ?_⟩
  have hlen : (buildRoute cfg k g).stop_etas.length =
      (buildRoute cfg k g).stop_sequence.length := by
    rw [← hm, List.length_map]
  have hie : i < (buildRoute cfg k g).stop_etas.length := by rw [hlen]; exact hi
  rw [List.getD_eq_getElem _ _ hie, List.getD_eq_getElem _ _ hi]
  have h2 : (buildRoute cfg k g).stop_sequence[i]? =
      ((buildRoute cfg k g).stop_etas[i]?).map StopEta.order_id := by
    rw [← hm, List.getElem?_map]
  rw [List.getElem?_eq_getElem hi, List.getElem?_eq_getElem hie] at h2
  simp at h2
  exact h2.symm

/-- C3 — Response field names: every route in the response carries its
per-route distance and duration under exactly the names `total_distance` and
`total_duration` — the names the dashboard dereferences as `r.total_distance`
and `r.total_duration` — and the grand total under `total_distance_km`; the §3
per-route spellings `total_distance_km` / `total_duration_min` are absent from
the route object, so of the two namings the spec states, only the §6 one holds
of the response. -/
theorem claim3_response_field_names (r : Route) (res : OptimizationResult) :
    dashboardRouteDistance (routeFields r) = some (.jnum r.total_distance) ∧
    dashboardRouteDuration (routeFields r) = some (.jnum r.total_duration) ∧
    dashboardTotalDistance (resultFields res) = some (.jnum res.total_distance_km) ∧
    jlookup "total_distance_km" (routeFields r) = none ∧
    jlookup "total_duration_min" (routeFields r) = none :=
  ⟨rfl, rfl, rfl, rfl, rfl⟩

/-- C6 — Input validation: an empty order list, non-positive `num_trucks`,
non-positive `truck_capacity_kg`, or malformed weights/coordinates (a negative
`weight_kg`, or a latitude/longitude outside the valid geographic range) is
rejected before any computation as a client-facing validation error (never a
computed result), and at the dashboard boundary `generatePlan` returns without
invoking the solver endpoint when the stored point list is empty (dashboard.js
line 1010). -/
theorem claim6_input_validation (cfg : Config) (orders : List Order)
    (numTrucks : Int) (outcome : Except String JVal)
    (hbad : orders = [] ∨ numTrucks ≤ 0 ∨ cfg.truck_capacity_kg ≤ 0 ∨
      (∃ o ∈ orders, o.weight_kg < 0) ∨
      ∃ o ∈ orders, o.lat < -90 ∨ 90 < o.lat ∨ o.lng < -180 ∨ 180 < o.lng) :
    solve cfg orders numTrucks =
      .error (.validation ((validateRequest cfg orders numTrucks).getD "")) ∧
    (App.generatePlan [] outcome).apiCalled = false := by
  constructor
  · rcases hv : validateRequest cfg orders numTrucks with _ | msg
    · exfalso
      obtain ⟨h1, h2, h3, h4, h5⟩ := validateRequest_none cfg orders numTrucks hv
      rcases hbad with h | h | h | ⟨o, ho, hw⟩ | ⟨o, ho, hm⟩
      · exact h1 h
      · exact absurd h2 (not_lt.mpr h)
      · exact absurd h3 (not_lt.mpr h)
      · exact absurd (h4 o ho) (not_le.mpr hw)
      · exact h5 o ho hm
    · simp [solve, hv]
  · rfl

/-- C7 — Caller timeout: every optimize-routes request the dashboard issues
goes to `CONFIG.API_URL` with a 120000 ms (two-minute) client-side timeout, and
a failed request (e.g. a timeout-rejected promise) is surfaced by
`generatePlan` as a failure toast with nothing saved — never as a result. -/
theorem claim7_caller_timeout (orders : List Order) (numTrucks : Nat)
    (points : List Order) (e : String) (hp : points ≠ []) :
    (APIService.optimizeRoutes orders numTrucks).url = CONFIG_API_URL ∧
    (APIService.optimizeRoutes orders numTrucks).timeoutMs = 120000 ∧
    (App.generatePlan points (.error e)).savedResult = none ∧
    (App.generatePlan points (.error e)).toast = "Optimization Failed: " ++ e := by
  have hlen : points.length ≠ 0 := fun h => hp (List.length_eq_zero.mp h)
  refine ⟨rfl, rfl, ?_, ?_⟩ <;> simp [App.generatePlan, hlen]

theorem jsTrunc_eq_floor (q : ℚ) (hq : 0 ≤ q) : jsTrunc q = ⌊q⌋ := by
  have h1 : ⌊q⌋ = q.num / (q.den : ℤ) := by
    conv_lhs => rw [← Rat.num_div_den q]
    exact Rat.floor_intCast_div_natCast q.num q.den
  unfold jsTrunc
  rw [Int.tdiv_eq_ediv (Rat.num_nonneg.mpr hq) (Int.natCast_nonneg _), h1]

theorem jsTrunc_natCast_div_five (m : ℕ) : jsTrunc ((m : ℚ) / 5) = (m / 5 : ℕ) := by
  rw [jsTrunc_eq_floor _ (by positivity)]
  have h : ((m : ℚ) / 5) = ((m : ℕ) : ℚ) / ((5 : ℕ) : ℚ) := by norm_num
  rw [h, Rat.floor_natCast_div_natCast]
  omega

theorem jsMod_natCast_five (m : ℕ) : jsMod (m : ℚ) 5 = ((m % 5 : ℕ) : ℚ) := by
  unfold jsMod
  rw [jsTrunc_natCast_div_five]
  have h2 : (5 : ℚ) * ((m / 5 : ℕ) : ℚ) + ((m % 5 : ℕ) : ℚ) = (m : ℚ) := by
    exact_mod_cast congrArg (Nat.cast : ℕ → ℚ) (Nat.div_add_mod m 5)
  have hcast : (((m / 5 : ℕ) : ℤ) : ℚ) = ((m / 5 : ℕ) : ℚ) := by norm_cast
  rw [hcast]
  linarith

theorem jsIndex_natCast (l : List String) (k : ℕ) : jsIndex l (k : ℚ) = l[k]? := by
  unfold jsIndex
  rw [if_pos ⟨Rat.den_natCast k, by simp⟩]
  simp

/-- C9 counterexample — the claim "getRouteColor is total and always returns
one of the five configured colors, and for finite `route_id > 0` it returns
`COLORS[(route_id - 1) % 5]`" fails at the finite positive non-integer
`route_id = 2.5`: `(2.5 - 1) % 5 = 1.5`, and `CONFIG.COLORS[1.5]` is
`undefined` (`none`), not a color. -/
theorem claim9_counterexample :
    JSNum.isFinite (JSNum.finite (5 / 2 : ℚ)) = true ∧ (0 : ℚ) < 5 / 2 ∧
    getRouteColor (JSNum.finite (5 / 2 : ℚ)) 0 = none := by
  refine ⟨rfl, by norm_num, ?_⟩
  unfold getRouteColor
  rw [if_pos (by simp only [JSNum.isFinite, JSNum.gtZero, Bool.true_and,
    decide_eq_true_eq]; norm_num)]
  simp only [JSNum.toQ]
  have e2 : jsTrunc ((5 / 2 - 1 : ℚ) / 5) = 0 := by
    rw [show ((5 / 2 - 1 : ℚ) / 5) = ((3 : ℕ) : ℚ) / ((10 : ℕ) : ℚ) by norm_num]
    rw [jsTrunc_eq_floor _ (by positivity), Rat.floor_natCast_div_natCast]
    norm_num
  have e3 : jsMod (5 / 2 - 1 : ℚ) 5 = 3 / 2 := by
    unfold jsMod
    rw [e2]
    norm_num
  rw [e3]
  unfold jsIndex
  rw [if_neg ?_]
  · intro hcon
    have h2 : (((3 / 2 : ℚ).num : ℚ)) = 3 / 2 := Rat.den_eq_one_iff _ |>.mp hcon.1
    have h3 : (2 : ℚ) * ((3 / 2 : ℚ).num : ℚ) = 3 := by rw [h2]; norm_num
    have h4 : (2 : ℤ) * (3 / 2 : ℚ).num = 3 := by exact_mod_cast h3
    omega

/-- C9 amended — route color determinism as the code actually behaves: when
`Number(route_id)` is a finite **positive integer** `n`, the color is
`CONFIG.COLORS[(n - 1) % 5]` independently of the index; when it is not a
finite positive number (NaN, infinite, or ≤ 0) the color is
`CONFIG.COLORS[index % 5]`; in both cases the lookup is in range and yields one
of the five configured colors.  (For a finite positive non-integer `route_id`
the array access is out of range and yields `undefined` — see the
counterexample.) -/
theorem claim9_amended (n i : Nat) (rid : JSNum)
    (hn : 0 < n)
    (hfb : ∀ q : ℚ, rid = JSNum.finite q → q ≤ 0) :
    getRouteColor (JSNum.finite (n : ℚ)) i = CONFIG_COLORS[(n - 1) % 5]? ∧
    getRouteColor rid i = CONFIG_COLORS[i % 5]? ∧
    (CONFIG_COLORS[(n - 1) % 5]?).isSome = true ∧
    (CONFIG_COLORS[i % 5]?).isSome = true := by
  have hmodlt : ∀ m : ℕ, (CONFIG_COLORS[m % 5]?).isSome = true := by
    intro m
    have h5 : m % 5 < CONFIG_COLORS.length := by
      have h0 := Nat.mod_lt m (show 0 < 5 by norm_num)
      simpa [CONFIG_COLORS] using h0
    rw [List.getElem?_eq_getElem h5]
    rfl
  refine ⟨?_, ?_, hmodlt _, hmodlt _⟩
  · unfold getRouteColor
    rw [if_pos (by simp only [JSNum.isFinite, JSNum.gtZero, Bool.true_and,
      decide_eq_true_eq]; exact_mod_cast hn)]
    simp only [JSNum.toQ]
    have hc : ((n : ℚ) - 1) = ((n - 1 : ℕ) : ℚ) := by
      push_cast [Nat.cast_sub hn]
      ring
    rw [hc, jsMod_natCast_five, jsIndex_natCast]
  · have hcond : (rid.isFinite && rid.gtZero) = false := by
      cases rid with
      | finite q =>
        simp only [JSNum.isFinite, JSNum.gtZero, Bool.true_and,
          decide_eq_false_iff_not]
        exact not_lt.mpr (hfb q rfl)
      | nan => rfl
      | posInf => rfl
      | negInf => rfl
    unfold getRouteColor
    rw [hcond]
    simp only [Bool.false_eq_true, if_false]
    rw [jsMod_natCast_five, jsIndex_natCast]

/-- C10 — Persistence loaders never throw: `Store.loadPoints` returns the
parsed `delivery_points` value, or the empty list when the stored entry is
absent, empty, or not valid JSON; `Store.loadOptResult` returns the parsed
`opt_result` value, or `null` when absent (it then parses the literal
`"null"`) or unparsable; every parse exception is caught, so both loaders (and
hence Store construction) return normally on any persisted state. -/
theorem claim10_store_loaders (parse : String → Except String JVal)
    (sg sb : String) (v : JVal) (er : String)
    (hg : parse sg = .ok v) (hb : parse sb = .error er)
    (hgne : sg ≠ "") (hbne : sb ≠ "")
    (hnull : parse "null" = .ok .null) :
    Store.loadPoints parse none = .jarr [] ∧
    Store.loadPoints parse (some "") = .jarr [] ∧
    Store.loadPoints parse (some sb) = .jarr [] ∧
    Store.loadPoints parse (some sg) = v ∧
    Store.loadOptResult parse none = .null ∧
    Store.loadOptResult parse (some sb) = .null ∧
    Store.loadOptResult parse (some sg) = v := by
  refine ⟨rfl, rfl, ?_, ?_, ?_, ?_, ?_⟩
  · simp [Store.loadPoints, Store.loadPointsBody, if_neg hbne, hb]
  · simp [Store.loadPoints, Store.loadPointsBody, if_neg hgne, hg]
  · simp [Store.loadOptResult, Store.loadOptResultBody, jsOrNullLiteral, hnull]
  · simp [Store.loadOptResult, Store.loadOptResultBody, jsOrNullLiteral,
      if_neg hbne, hb]
  · simp [Store.loadOptResult, Store.loadOptResultBody, jsOrNullLiteral,
      if_neg hgne, hg]

theorem testValidate_none : validateRequest testCfg testOrders 1 = none := by
  norm_num [validateRequest, testCfg, testOrders, testA, testB]

theorem testValidate2_none : validateRequest testCfg testOrders2 1 = none := by
  norm_num [validateRequest, testCfg, testOrders2, testA, testC]

theorem testAssign : capacityAssign testCfg (Int.toNat 1) testOrders =
    ([[testA]], [testB]) := by
  norm_num [capacityAssign, sweepSort, testOrders, List.insertionSort,
    List.orderedInsert, testCfg, capacityAssignGo, testA, testB]

theorem testAssign2 : capacityAssign testCfg (Int.toNat 1) testOrders2 =
    ([[testA]], [testC]) := by
  norm_num [capacityAssign, sweepSort, testOrders2, List.insertionSort,
    List.orderedInsert, testCfg, capacityAssignGo, testA, testC]

theorem testRoutes : (optimize testCfg testOrders (Int.toNat 1)).routes =
    [buildRoute testCfg 1 [testA]] := by
  show buildRoutes testCfg 1 (capacityAssign testCfg (Int.toNat 1) testOrders).1 = _
  rw [testAssign]
  rfl

theorem testRoutes2 : (optimize testCfg testOrders2 (Int.toNat 1)).routes =
    [buildRoute testCfg 1 [testA]] := by
  show buildRoutes testCfg 1 (capacityAssign testCfg (Int.toNat 1) testOrders2).1 = _
  rw [testAssign2]
  rfl

theorem testSeq : sequenceStops testCfg [testA] = [testA] := rfl

theorem claim2_capacity_witness :
    (buildRoute testCfg 1 [testA]).truck_load ≤
      (optimize testCfg testOrders (Int.toNat 1)).truck_capacity_kg ∧
    (buildRoute testCfg 1 [testA]).truck_load /
      (optimize testCfg testOrders (Int.toNat 1)).truck_capacity_kg * 100 ≤ 100 :=
  claim2_capacity testCfg testOrders 1 (optimize testCfg testOrders (Int.toNat 1))
    (buildRoute testCfg 1 [testA])
    (by unfold solve; rw [testValidate_none]; rfl)
    (by rw [testRoutes]; exact List.mem_singleton_self _)

theorem claim4_overflow_witness :
    solve testCfg testOrders2 1 = .ok (optimize testCfg testOrders2 (Int.toNat 1)) ∧
      testC ∈ (optimize testCfg testOrders2 (Int.toNat 1)).unassigned_orders ∧
      testC.id ∉ (buildRoute testCfg 1 [testA]).stop_sequence :=
  claim4_overflow testCfg testOrders2 1 (buildRoute testCfg 1 [testA]) testC
    testValidate2_none
    (by simp [testOrders2])
    (by norm_num [testCfg, testC])
    (by simp [testOrders2, testA, testC])
    (by rw [testRoutes2]; exact List.mem_singleton_self _)

theorem claim5_determinism_witness :
    solveResponse testCfg testOrders 1 = solveResponse testCfg testOrders 1 :=
  claim5_determinism testCfg testCfg testOrders testOrders 1 1 rfl rfl rfl

theorem claim6_input_validation_witness :
    solve testCfg [] 3 =
      .error (.validation ((validateRequest testCfg [] 3).getD "")) ∧
    (App.generatePlan [] (.ok .null)).apiCalled = false :=
  claim6_input_validation testCfg [] 3 (.ok .null) (Or.inl rfl)

theorem claim7_caller_timeout_witness :
    (APIService.optimizeRoutes [] 2).url = CONFIG_API_URL ∧
    (APIService.optimizeRoutes [] 2).timeoutMs = 120000 ∧
    (App.generatePlan [testA] (.error "timeout of 120000ms exceeded")).savedResult =
      none ∧
    (App.generatePlan [testA] (.error "timeout of 120000ms exceeded")).toast =
      "Optimization Failed: " ++ "timeout of 120000ms exceeded" :=
  claim7_caller_timeout [] 2 [testA] "timeout of 120000ms exceeded" (by simp)

theorem claim8_eta_parallel_witness :
    (buildRoute testCfg 1 [testA]).stop_etas.map StopEta.order_id =
      (buildRoute testCfg 1 [testA]).stop_sequence ∧
    ((buildRoute testCfg 1 [testA]).stop_etas.getD 0 ⟨"", 0⟩).order_id =
      (buildRoute testCfg 1 [testA]).stop_sequence.getD 0 "" :=
  claim8_eta_parallel testCfg testOrders (Int.toNat 1) (buildRoute testCfg 1 [testA]) 0
    (by rw [testRoutes]; exact List.mem_singleton_self _)
    (by show 0 < ((sequenceStops testCfg [testA]).map Order.id).length
        rw [testSeq]
        norm_num)

theorem claim9_amended_witness :
    getRouteColor (JSNum.finite ((7 : ℕ) : ℚ)) 3 = CONFIG_COLORS[(7 - 1) % 5]? ∧
    getRouteColor JSNum.nan 3 = CONFIG_COLORS[3 % 5]? ∧
    (CONFIG_COLORS[(7 - 1) % 5]?).isSome = true ∧
    (CONFIG_COLORS[3 % 5]?).isSome = true :=
  claim9_amended 7 3 JSNum.nan (by norm_num) (fun q h => nomatch h)

theorem claim10_store_loaders_witness :
    Store.loadPoints testParse none = .jarr [] ∧
    Store.loadPoints testParse (some "") = .jarr [] ∧
    Store.loadPoints testParse (some "oops") = .jarr [] ∧
    Store.loadPoints testParse (some "[1]") = .jarr [.jnum 1] ∧
    Store.loadOptResult testParse none = .null ∧
    Store.loadOptResult testParse (some "oops") = .null ∧
    Store.loadOptResult testParse (some "[1]") = .jarr [.jnum 1] :=
  claim10_store_loaders testParse "[1]" "oops" (.jarr [.jnum 1]) "SyntaxError"
    (by simp [testParse]) (by simp [testParse]) (by simp) (by simp)
    (by simp [testParse])

